import Mathlib

/-!
# Verification of the datasleuth profiling and quality-scoring engine

Shallow embedding of the Go sources `internal/profiler/csv.go`,
`internal/profiler/correlation.go` and `internal/profiler/profile.go`
(the variant whose `DatasetProfile` carries `CorrelationMatrix` and
`Recommendations`, which is the one the report package compiles against).

Modelling conventions, used throughout and noted again at each definition:

* Go `float64` arithmetic is idealised as exact arithmetic on `ℚ`.
  Deviations of IEEE-754 from exact arithmetic are flagged in doc comments
  wherever a claim could be sensitive to them.
* Go's float-to-int conversion `int(x)` truncates toward zero; it is
  modelled by `goIntOfFloat` (truncated rational), which agrees with Go for
  every finite argument.  The one place where the Go program converts a
  non-finite float (`NaN`) to `int` is modelled explicitly with `Option`
  (see `calculateNumericStats`).
* Go `map` types are modelled as association lists in deterministic
  (first-insertion) order.  Every result a claim mentions is independent of
  map iteration order; this is noted where relevant.
* Counters (`RowCount`, `MissingCount`, ...) are Go `int`s that the program
  only ever increments from zero; they are modelled as `ℕ`.
  `QualityIssue.Severity` is likewise only ever assigned 1, 2 or 3 by the
  program and is modelled as `ℕ`.
* File-system access, timestamps and durations (`os.Open`, `time.Now`,
  `ProcessingTime`, `CreatedAt`, `FileSize` reading) are IO effects outside
  the embedding; the record-level entry point `ProfileCSVFromRecords` takes
  the already-parsed CSV records, and `ProfileDataset` takes the outcome of
  the CSV path as a parameter.
-/

set_option maxRecDepth 16000

namespace DataSleuth

/-! ## Go value parsers (`strconv`, `time.Parse`) -/

/-- Numeric value of a list of decimal digit characters, most significant
first (helper for the `strconv` models). -/
def natOfDigits (ds : List Char) : Nat :=
  ds.foldl (fun a c => 10 * a + (c.toNat - '0'.toNat)) 0

/-- Model of `strconv.ParseInt(v, 10, 64) == nil`: an optional sign followed
by at least one decimal digit (no underscores in base 10), with the value
required to fit in `int64` (`ParseInt` reports `ErrRange` otherwise). -/
def goParseIntOk (s : String) : Bool :=
  match s.toList with
  | [] => false
  | c :: rest =>
    let p := if c = '+' then (false, rest)
             else if c = '-' then (true, rest)
             else (false, c :: rest)
    !p.2.isEmpty && p.2.all Char.isDigit &&
      (if p.1 then natOfDigits p.2 ≤ 2 ^ 63 else natOfDigits p.2 < 2 ^ 63)

/-- No two consecutive underscores (helper for `digitGroupOk`). -/
def noDoubleUnderscore : List Char → Bool
  | '_' :: '_' :: _ => false
  | _ :: rest => noDoubleUnderscore rest
  | [] => true

/-- A digit group possibly containing underscores, as accepted by Go's
`strconv` `underscoreOK` rule: nonempty, starts and ends with a digit,
all characters digits or underscores, and never two consecutive
underscores — together forcing every underscore to sit between digits.
`digOk` decides whether a character counts as a digit. -/
def digitGroupOk (digOk : Char → Bool) (g : List Char) : Bool :=
  !g.isEmpty && digOk (g.headD '_') && digOk (g.getLastD '_') &&
    g.all (fun c => digOk c || c = '_') && noDoubleUnderscore g

/-- Value of a hexadecimal digit character. -/
def hexVal (c : Char) : Nat :=
  if c.isDigit then c.toNat - '0'.toNat
  else if 'a' ≤ c ∧ c ≤ 'f' then c.toNat - 'a'.toNat + 10
  else if 'A' ≤ c ∧ c ≤ 'F' then c.toNat - 'A'.toNat + 10
  else 0

/-- Hexadecimal digit test. -/
def isHexDig (c : Char) : Bool :=
  c.isDigit || ('a' ≤ c && c ≤ 'f') || ('A' ≤ c && c ≤ 'F')

/-- Numeric value of a list of hex digit characters, most significant first. -/
def natOfHexDigits (ds : List Char) : Nat :=
  ds.foldl (fun a c => 16 * a + hexVal c) 0

/-- `m × b^e` as an exact rational, written with natural-number powers and
`Rat.divInt` (rather than rational multiplication and `zpow`) so that the
parsers evaluate by kernel reduction; the value is the same. -/
def sciRat (m : Nat) (b : Nat) (e : ℤ) : ℚ :=
  if 0 ≤ e then ((m * b ^ e.toNat : ℕ) : ℚ)
  else Rat.divInt (m : ℤ) ((b ^ (-e).toNat : ℕ) : ℤ)

/-- Body of a decimal floating-point literal (sign already stripped):
`digits [. digits] [(e|E) [sign] digits]` with at least one mantissa digit
and Go's underscore placement rule.  Returns its exact rational value. -/
def parseDecBody (cs : List Char) : Option ℚ :=
  let ipr := cs.span (fun c => c.isDigit || c = '_')
  let fpr : List Char × List Char :=
    match ipr.2 with
    | '.' :: r => r.span (fun c => c.isDigit || c = '_')
    | r => ([], r)
  let hadDot : Bool := match ipr.2 with | '.' :: _ => true | _ => false
  let ip := ipr.1
  let fp := fpr.1
  let mantOk := (ip.isEmpty || digitGroupOk Char.isDigit ip) &&
                (fp.isEmpty || digitGroupOk Char.isDigit fp) &&
                (!(ip.filter Char.isDigit).isEmpty || !(fp.filter Char.isDigit).isEmpty)
  let rest2 := if hadDot then fpr.2 else ipr.2
  let fracLen : Nat := (fp.filter Char.isDigit).length
  let mant : Nat := natOfDigits (ip.filter Char.isDigit ++ fp.filter Char.isDigit)
  match rest2 with
  | [] =>
    if mantOk then some (sciRat mant 10 (-(fracLen : ℤ))) else none
  | e :: r3 =>
    if e = 'e' ∨ e = 'E' then
      let sr : Bool × List Char :=
        match r3 with
        | '+' :: r => (false, r)
        | '-' :: r => (true, r)
        | r => (false, r)
      let ep := sr.2
      if mantOk && digitGroupOk Char.isDigit ep then
        let ex : ℤ := if sr.1 then -(natOfDigits (ep.filter Char.isDigit) : ℤ)
                      else (natOfDigits (ep.filter Char.isDigit) : ℤ)
        some (sciRat mant 10 (ex - (fracLen : ℤ)))
      else none
    else none

/-- Body of a hexadecimal floating-point literal (sign and `0x`/`0X` prefix
already stripped): `hexdigits [. hexdigits] (p|P) [sign] digits`, binary
exponent mandatory.  A leading underscore directly after the base prefix is
permitted (Go's `underscoreOK`). -/
def parseHexBody (cs : List Char) : Option ℚ :=
  let ipr := cs.span (fun c => isHexDig c || c = '_')
  let fpr : List Char × List Char :=
    match ipr.2 with
    | '.' :: r => r.span (fun c => isHexDig c || c = '_')
    | r => ([], r)
  let hadDot : Bool := match ipr.2 with | '.' :: _ => true | _ => false
  let ip := ipr.1
  let fp := fpr.1
  let ipOk := ip.isEmpty || digitGroupOk isHexDig ip ||
              (match ip with
               | '_' :: t => digitGroupOk isHexDig t
               | _ => false)
  let mantOk := ipOk && (fp.isEmpty || digitGroupOk isHexDig fp) &&
                (!(ip.filter isHexDig).isEmpty || !(fp.filter isHexDig).isEmpty)
  let rest2 := if hadDot then fpr.2 else ipr.2
  let fracLen : Nat := (fp.filter isHexDig).length
  let mant : Nat := natOfHexDigits (ip.filter isHexDig ++ fp.filter isHexDig)
  match rest2 with
  | p :: r3 =>
    if p = 'p' ∨ p = 'P' then
      let sr : Bool × List Char :=
        match r3 with
        | '+' :: r => (false, r)
        | '-' :: r => (true, r)
        | r => (false, r)
      let ep := sr.2
      if mantOk && digitGroupOk Char.isDigit ep then
        let ex : ℤ := if sr.1 then -(natOfDigits (ep.filter Char.isDigit) : ℤ)
                      else (natOfDigits (ep.filter Char.isDigit) : ℤ)
        some (sciRat mant 2 (ex - 4 * (fracLen : ℤ)))
      else none
    else none
  | [] => none

/-- `strconv.ParseFloat` returns `ErrRange` (a non-nil error) for literals
whose value overflows `float64` (rounds to ±Inf, i.e. magnitude at least
`2^1024 − 2^970`) or whose nonzero value underflows to zero (magnitude at
most `2^(−1075)`, half the smallest subnormal; the tie rounds to even 0).
Such literals are rejected here exactly as the Go call sites — which all
require a nil error — reject them. -/
def rangeCheck (q : ℚ) : Option ℚ :=
  if (((2 ^ 1024 - 2 ^ 970 : ℕ) : ℚ)) ≤ |q| then none
  else if q ≠ 0 ∧ |q| ≤ Rat.divInt 1 ((2 ^ 1075 : ℕ) : ℤ) then none
  else some q

/-- Model of a successful finite-valued `strconv.ParseFloat(v, 64)`:
optional sign, then a decimal or hexadecimal Go float literal, with the
range check above.  The value is the exact rational value of the literal
(exact-rational idealisation: Go additionally rounds it to the nearest
`float64`).  The special non-finite literals `inf`/`infinity`/`nan` are a
successful parse in Go but have no rational value; they are handled
separately by `isSpecialFloat`. -/
def parseGoFloat? (s : String) : Option ℚ :=
  match s.toList with
  | [] => none
  | c0 :: rest0 =>
    let sgn : Bool × List Char :=
      if c0 = '+' then (false, rest0)
      else if c0 = '-' then (true, rest0)
      else (false, c0 :: rest0)
    let body : Option ℚ :=
      match sgn.2 with
      | '0' :: 'x' :: rest => parseHexBody rest
      | '0' :: 'X' :: rest => parseHexBody rest
      | cs => parseDecBody cs
    match body with
    | none => none
    | some q => rangeCheck (if sgn.1 then -q else q)

/-- ASCII lowering of a string, character by character (model of
`strings.ToLower`; Go's Unicode case mapping agrees on ASCII, which covers
every comparison the program makes).  Defined over the character list so
that it reduces inside the kernel. -/
def goToLower (s : String) : String := String.mk (s.data.map Char.toLower)

/-- The non-finite special literals accepted by `strconv.ParseFloat`
(case-insensitive): `inf`/`infinity` with optional sign, and unsigned
`nan` (the `special` scanner falls through from the sign case directly to
the infinity check, so a signed `nan` is a syntax error). -/
def isSpecialFloat (s : String) : Bool :=
  let t := goToLower s
  t = "inf" || t = "infinity" || t = "+inf" || t = "-inf" ||
    t = "+infinity" || t = "-infinity" || t = "nan"

/-- Model of `strconv.ParseFloat(v, 64) == nil` (success, finite or not). -/
def goParseFloatOk (s : String) : Bool :=
  (parseGoFloat? s).isSome || isSpecialFloat s

/-- The value of a successful `strconv.ParseFloat`: a finite `float64`
(idealised as its exact rational) or one of the non-finite specials. -/
inductive GoFloat where
  | finite (q : ℚ)
  | posInf
  | negInf
  | nan
deriving Repr, DecidableEq

/-- Finiteness of a parsed float. -/
def GoFloat.isFinite : GoFloat → Bool
  | .finite _ => true
  | _ => false

/-- The rational value of a finite parsed float. -/
def GoFloat.toFinite? : GoFloat → Option ℚ
  | .finite q => some q
  | _ => none

/-- Model of `strconv.ParseFloat(v, 64)` returning `(value, nil)`: a
finite literal yields its exact rational value, and the special literals
yield the corresponding non-finite `float64` (`inf`/`infinity` with
optional sign, unsigned `nan`); everything else — syntax errors and
`ErrRange` literals — is `none`.  The special and numeric syntaxes are
disjoint, so the match order is immaterial. -/
def parseGoFloatValue? (s : String) : Option GoFloat :=
  match parseGoFloat? s with
  | some q => some (GoFloat.finite q)
  | none =>
    let t := goToLower s
    if t = "inf" || t = "infinity" || t = "+inf" || t = "+infinity" then
      some GoFloat.posInf
    else if t = "-inf" || t = "-infinity" then some GoFloat.negInf
    else if t = "nan" then some GoFloat.nan
    else none

/-- The two views of `strconv.ParseFloat` success agree: the boolean used
by `inferDataType` succeeds exactly when the value model used by
`calculateNumericStats` produces a value. -/
theorem goParseFloatOk_eq_value (s : String) :
    goParseFloatOk s = (parseGoFloatValue? s).isSome := by
  unfold goParseFloatOk parseGoFloatValue? isSpecialFloat
  cases hp : parseGoFloat? s with
  | some q => simp
  | none =>
    simp only [Option.isSome_none, Bool.false_or]
    split_ifs with h1 h2 h3 <;>
      simp_all [Bool.or_eq_true, decide_eq_true_eq] <;> tauto

/-! ### `time.Parse` with the three fixed layouts -/

/-- Proleptic-Gregorian leap year, as used by Go's `time` package. -/
def leapYear (y : Nat) : Bool :=
  (y % 4 = 0 && y % 100 ≠ 0) || y % 400 = 0

/-- Days in a month, validated by `time.Parse` ("day out of range"). -/
def daysInMonth (y m : Nat) : Nat :=
  if m = 2 then (if leapYear y then 29 else 28)
  else if m = 4 ∨ m = 6 ∨ m = 9 ∨ m = 11 then 30
  else 31

/-- Numeric value of a two-digit field. -/
def num2 (a b : Char) : Nat := 10 * (a.toNat - '0'.toNat) + (b.toNat - '0'.toNat)

/-- Layout `"2006-01-02"`: exactly `YYYY-MM-DD`, all fields fixed-width
digits, with month and day-of-month range validation as in `time.Parse`. -/
def isYMD (cs : List Char) : Bool :=
  match cs with
  | [y1, y2, y3, y4, '-', m1, m2, '-', d1, d2] =>
    [y1, y2, y3, y4, m1, m2, d1, d2].all Char.isDigit &&
      (let y := natOfDigits [y1, y2, y3, y4]
       let m := num2 m1 m2
       let d := num2 d1 d2
       1 ≤ m && m ≤ 12 && 1 ≤ d && d ≤ daysInMonth y m)
  | _ => false

/-- Layout `"01/02/2006"`: exactly `MM/DD/YYYY` with the same validation. -/
def isMDY (cs : List Char) : Bool :=
  match cs with
  | [m1, m2, '/', d1, d2, '/', y1, y2, y3, y4] =>
    [y1, y2, y3, y4, m1, m2, d1, d2].all Char.isDigit &&
      (let y := natOfDigits [y1, y2, y3, y4]
       let m := num2 m1 m2
       let d := num2 d1 d2
       1 ≤ m && m ≤ 12 && 1 ≤ d && d ≤ daysInMonth y m)
  | _ => false

/-- Timezone part of the `Z07:00` layout element: literal `Z` or
`±hh:mm` (Go does not range-check the offset fields beyond requiring
digits). -/
def zoneOk : List Char → Bool
  | ['Z'] => true
  | [c, h1, h2, ':', m1, m2] =>
    (c = '+' || c = '-') && [h1, h2, m1, m2].all Char.isDigit
  | _ => false

/-- Optional fractional seconds (a `.` or `,` followed by at least one
digit, accepted by `time.Parse` even though the layout has none) followed
by the timezone. -/
def fracZoneOk (cs : List Char) : Bool :=
  match cs with
  | c :: rest =>
    if c = '.' ∨ c = ',' then
      let p := rest.span Char.isDigit
      !p.1.isEmpty && zoneOk p.2
    else zoneOk cs
  | [] => false

/-- Layout `time.RFC3339` (`"2006-01-02T15:04:05Z07:00"`): full date, `T`,
`hh:mm:ss` with range validation, optional fractional seconds, timezone. -/
def isRFC3339 (cs : List Char) : Bool :=
  match cs with
  | y1 :: y2 :: y3 :: y4 :: '-' :: m1 :: m2 :: '-' :: d1 :: d2 :: 'T' ::
      h1 :: h2 :: ':' :: mi1 :: mi2 :: ':' :: s1 :: s2 :: rest =>
    isYMD [y1, y2, y3, y4, '-', m1, m2, '-', d1, d2] &&
      [h1, h2, mi1, mi2, s1, s2].all Char.isDigit &&
      num2 h1 h2 ≤ 23 && num2 mi1 mi2 ≤ 59 && num2 s1 s2 ≤ 59 &&
      fracZoneOk rest
  | _ => false

/-- Success of any of the three `time.Parse` attempts made by
`inferDataType`, tried in source order (RFC 3339, `2006-01-02`,
`01/02/2006`); only success matters to the caller, so the three attempts
collapse to a disjunction. -/
def goParseDateOk (s : String) : Bool :=
  isRFC3339 s.toList || isYMD s.toList || isMDY s.toList

/-! ## Data model (`profile.go`) -/

/-- `QualityIssue`.  `Severity` is a Go `int` that the program only ever
assigns the literals 1, 2 or 3, modelled as `ℕ`.  The Go field `Type` is
not a legal Lean identifier and is rendered `Type'`. -/
structure QualityIssue where
  Type' : String
  Description : String
  Severity : Nat
deriving Repr, DecidableEq

/-- `HistogramBucket` (bounds are `float64`, idealised as `ℚ`). -/
structure HistogramBucket where
  LowerBound : ℚ
  UpperBound : ℚ
  Count : Nat
deriving Repr, DecidableEq

/-- `ValueCount`. -/
structure ValueCount where
  Value : String
  Count : Nat
deriving Repr, DecidableEq

/-- `ColumnProfile`.  `Min`/`Max` are `interface{}` fields left `nil`
unless numeric statistics run, modelled as `Option ℚ`.  The source stores
`StdDev = math.Sqrt(variance)`, an irrational real in general; the
embedding stores the radicand in the field `Variance` (no claim consults
the standard deviation itself).  `Mean`/`Median` default to the Go zero
value 0. -/
structure ColumnProfile where
  Name : String
  DataType : String
  Count : Nat
  MissingCount : Nat
  UniqueCount : Nat
  Min : Option ℚ
  Max : Option ℚ
  Mean : ℚ
  Median : ℚ
  Variance : ℚ
  HistogramBuckets : List HistogramBucket
  TopValues : List ValueCount
  IsNumeric : Bool
  IsCategorical : Bool
  IsDateTime : Bool
  IsUnique : Bool
  QualityIssues : List QualityIssue
deriving Repr, DecidableEq

/-- `CorrelationPair`. -/
structure CorrelationPair where
  Column1 : String
  Column2 : String
  Correlation : ℚ
deriving Repr, DecidableEq

/-- `CorrelationMatrix`.  The Go `map[string]map[string]float64` is
modelled as a nested association list in the deterministic order of the
sorted column list (the Go code fills the fully-initialised map so that
every entry ends up `1.0` on the diagonal and the symmetric Pearson value
off it; the embedding writes those final values directly). -/
structure CorrelationMatrix where
  Columns : List String
  Values : List (String × List (String × ℚ))
  TopPairs : List CorrelationPair
deriving Repr, DecidableEq

/-- `DatasetProfile` (the variant with `CorrelationMatrix` and
`Recommendations`).  `Columns` is a `map[string]*ColumnProfile`, modelled
as an association list keyed by header name in first-insertion order; no
claim depends on map iteration order.  `ProcessingTime`/`CreatedAt` are
clock effects outside the embedding.  A `nil` `Recommendations` slice and
an empty one are indistinguishable to every consumer and are both `[]`. -/
structure DatasetProfile where
  Filename : String
  FileSize : Int
  Format : String
  RowCount : Nat
  ColumnCount : Nat
  MissingCells : Nat
  DuplicateRows : Nat
  Columns : List (String × ColumnProfile)
  QualityIssues : List QualityIssue
  QualityScore : Int
  CorrelationMatrix : Option CorrelationMatrix
  Recommendations : List String
deriving Repr, DecidableEq

/-! ## Type inference (`csv.go`, `inferDataType`) -/

/-- The tallying loop of `inferDataType`: one pass over the sample,
classifying each value as integer, else float, else date (each `continue`
in the source skips the remaining attempts), accumulating
`(intCount, floatCount, dateCount)`. -/
def inferLoop : List String → Nat × Nat × Nat → Nat × Nat × Nat
  | [], acc => acc
  | v :: rest, (i, f, d) =>
    if goParseIntOk v then inferLoop rest (i + 1, f, d)
    else if goParseFloatOk v then inferLoop rest (i, f + 1, d)
    else if goParseDateOk v then inferLoop rest (i, f, d + 1)
    else inferLoop rest (i, f, d)

/-- `inferDataType`.  `sampleSize := int(math.Min(float64(len), 100))` is
exactly `min len 100` (the conversions are exact for these magnitudes).
The source compares `float64(count) >= float64(sampleSize)*0.9`; for every
`sampleSize ≤ 100` the IEEE-754 double computation decides exactly the
rational inequality `count ≥ sampleSize * (9/10)` (the rounding error of
the product `sampleSize * 0.9`, at most `2⁻⁴⁹`, is absorbed by rounding to
nearest: for each multiple of 10 the product rounds back to the exact
integer, and otherwise the gap to the nearest integer is at least 1/10),
so the threshold is embedded as the exact rational comparison. -/
def inferDataType (values : List String) : String :=
  if values.length = 0 then "unknown"
  else
    let sampleSize := min values.length 100
    let c := inferLoop (values.take sampleSize) (0, 0, 0)
    if (c.1 : ℚ) ≥ (sampleSize : ℚ) * 0.9 then "integer"
    else if ((c.1 + c.2.1 : ℕ) : ℚ) ≥ (sampleSize : ℚ) * 0.9 then "float"
    else if (c.2.2 : ℚ) ≥ (sampleSize : ℚ) * 0.9 then "datetime"
    else "string"

/-- Go's float-to-int conversion `int(x)` truncates toward zero; on exact
rationals that is `Int.div` (truncation toward zero) of numerator by
denominator. -/
def goIntOfFloat (q : ℚ) : ℤ := Int.tdiv q.num (q.den : ℤ)

/-- The bucket index computed for value `v`: `int((v − min) / bucketSize)`
followed by the clamp `if bucketIndex >= 10 { bucketIndex = 9 }`.  The
clamp only bounds the index from above. -/
def bucketIndex (mn bucketSize v : ℚ) : ℤ :=
  let bi := goIntOfFloat ((v - mn) / bucketSize)
  if bi ≥ 10 then 9 else bi

/-- `buckets[i].Count++`. -/
def incrBucket : List HistogramBucket → Nat → List HistogramBucket
  | [], _ => []
  | b :: bs, 0 => { b with Count := b.Count + 1 } :: bs
  | b :: bs, i + 1 => b :: incrBucket bs i

/-- The ten initial buckets: `lower = min + i*bucketSize`,
`upper = min + (i+1)*bucketSize` except the last, pinned to `max`. -/
def mkBuckets (mn bucketSize mx : ℚ) : List HistogramBucket :=
  (List.range 10).map fun i =>
    { LowerBound := mn + (i : ℚ) * bucketSize
      UpperBound := if i = 9 then mx else mn + ((i : ℚ) + 1) * bucketSize
      Count := 0 }

/-- The histogram-filling loop.  `(bucketIndex mn bucketSize v).toNat` is
exact because every `v` fed here satisfies `v ≥ mn` (`mn` is the running
minimum of the same list) and `bucketSize > 0`, so the index is
nonnegative; the Go program would panic on a negative index, which cannot
arise on this path. -/
def fillBuckets (mn bucketSize : ℚ) (nums : List ℚ)
    (buckets : List HistogramBucket) : List HistogramBucket :=
  nums.foldl (fun bs v => incrBucket bs (bucketIndex mn bucketSize v).toNat) buckets

/-- Running minimum starting from `x` (the source initialises with
`numValues[0]` and folds `if v < min { min = v }` over the list). -/
def listMinQ (x : ℚ) (l : List ℚ) : ℚ :=
  l.foldl (fun m v => if v < m then v else m) x

/-- Running maximum, symmetric to `listMinQ`. -/
def listMaxQ (x : ℚ) (l : List ℚ) : ℚ :=
  l.foldl (fun m v => if v > m then v else m) x

/-- Stable insertion of a value into an ascending-sorted list (one step of
the source's in-place insertion sort used for the median). -/
def insQ (x : ℚ) : List ℚ → List ℚ
  | [] => [x]
  | y :: ys => if x < y then x :: y :: ys else y :: insQ x ys

/-- Ascending insertion sort of the numeric values (the source sorts
`numValues` in place before taking the median; the later histogram and
outlier loops then run over the sorted slice, which holds the same
multiset of values, so their results are unchanged). -/
def sortQ (l : List ℚ) : List ℚ := l.foldr insQ []

/-- The result `calculateNumericStats` assigns to the column when it
completes. -/
structure NumericStats where
  mn : ℚ
  mx : ℚ
  mean : ℚ
  median : ℚ
  variance : ℚ
  buckets : List HistogramBucket
  issues : List QualityIssue
deriving Repr, DecidableEq

/-- `calculateNumericStats`.

`numValues` is the list of values Go's loop keeps — every value whose
`strconv.ParseFloat` returns a nil error, which includes the non-finite
literals `inf`/`infinity`/`nan` (`parseGoFloatValue?`).

Result shape: `some none` — no value parsed at all, the function returns
early and leaves the column untouched; `some (some s)` — the function
completes and assigns `s`; `none` — the undefined/panicking outcome,
which arises in two ways:

* Some parsed value is non-finite.  Then the histogram fill loop
  computes `int(NaN)` for at least one value: a NaN value makes
  `(v−min)/bucketSize` NaN directly; a `+Inf` value forces
  `bucketSize ∈ {+Inf, NaN}` and `(v−min)/bucketSize` is `Inf/Inf` or
  propagates NaN; a `−Inf` value makes `min = −Inf` (or NaN-poisoned)
  and `v−min = −Inf−(−Inf) = NaN`.
* Every parsed value is finite and equal (`min == max`, in particular
  any single-value column).  Then the bucket width `(max−min)/10` is
  `0.0` (the guard below tests `min == max`, which is exactly the
  zero-width condition in exact arithmetic) and the Go code computes
  `bucketIndex := int((v−min)/bucketSize) = int(0.0/0.0) = int(NaN)`.

Converting NaN to `int` is implementation-dependent per the Go
specification (on amd64 it yields `math.MinInt64`, on arm64 it yields
0), and the clamp `if bucketIndex >= bucketCount` only bounds the index
from above, so `buckets[bucketIndex]` is an out-of-range panic on amd64.
The embedding returns `none` for both paths rather than inventing a
bucket.  (The inner `[]` branch is unreachable: the list is nonempty and
all-finite there; it is mapped to the same undefined outcome.)

The outlier test `math.Abs(v−mean)/stdDev > 3` (guarded by `stdDev > 0`,
with `stdDev = √variance`) is embedded as the exact equivalent
`variance > 0 ∧ (v−mean)² > 9·variance`. -/
def calculateNumericStats (values : List String) : Option (Option NumericStats) :=
  let numValues := values.filterMap parseGoFloatValue?
  if numValues.isEmpty then some none
  else if numValues.any (fun v => !v.isFinite) then none
  else
    match numValues.filterMap GoFloat.toFinite? with
    | [] => none
    | v0 :: rest =>
      let nums := v0 :: rest
      let n : ℚ := (nums.length : ℚ)
      let sum := nums.foldl (fun a v => a + v) 0
      let sumSquares := nums.foldl (fun a v => a + v * v) 0
      let mn := listMinQ v0 nums
      let mx := listMaxQ v0 nums
      let mean := sum / n
      let variance := sumSquares / n - mean * mean
      let sorted := sortQ nums
      let mid := nums.length / 2
      let median :=
        if nums.length % 2 = 0 then (sorted.getD (mid - 1) 0 + sorted.getD mid 0) / 2
        else sorted.getD mid 0
      let bucketSize := (mx - mn) / 10
      if mx = mn then none
      else
        let buckets := fillBuckets mn bucketSize nums (mkBuckets mn bucketSize mx)
        let outlierCount :=
          if variance > 0 then nums.countP (fun v => (v - mean) * (v - mean) > 9 * variance)
          else 0
        let issues : List QualityIssue :=
          if outlierCount > 0 then
            let outlierPct : ℚ := (outlierCount : ℚ) / n * 100
            let severity := if outlierPct > 10 then 3 else if outlierPct > 5 then 2 else 1
            [{ Type' := "outliers"
               Description := toString outlierCount ++ " outliers detected"
               Severity := severity }]
          else []
        some (some { mn := mn, mx := mx, mean := mean, median := median,
                     variance := variance, buckets := buckets, issues := issues })

/-! ## Top values and quality issues (`csv.go`) -/

/-- One step of the source's stable descending insertion sort on
`ValueCount` (the inner `for j >= 0 && topValues[j].Count < key.Count`
loop): the inserted element passes elements with a strictly smaller count
and lands after elements with an equal or larger one. -/
def insVC (x : ValueCount) : List ValueCount → List ValueCount
  | [] => [x]
  | y :: ys => if y.Count < x.Count then x :: y :: ys else y :: insVC x ys

/-- `getTopValues`: materialise the frequency table, insertion-sort by
descending count (stable), truncate to `limit`.  The Go map iteration
order is unspecified; the embedding receives the table in first-encounter
order, one deterministic representative (only the relative order of
equal-count entries depends on it, and no claim does). -/
def getTopValues (valueCounts : List (String × Nat)) (limit : Nat) : List ValueCount :=
  let topValues := valueCounts.map fun p => ValueCount.mk p.1 p.2
  let sorted := topValues.foldr insVC []
  if limit < sorted.length then sorted.take limit else sorted

/-- Case-insensitive substring test for `"id"`
(`strings.Contains(strings.ToLower(name), "id")`). -/
def containsID : List Char → Bool
  | 'i' :: 'd' :: _ => true
  | _ :: rest => containsID rest
  | [] => false

/-- `detectQualityIssues`: the three column-level rules, appended in
source order (missing values, likely-ID, imbalance).  All percentage
arithmetic is exact on `ℚ`; each threshold compares a rational to an
integer, where the IEEE-754 computation decides the same inequality for
the operand ranges that occur.  (For `rowCount = 0` the missing branch
cannot fire with `MissingCount > 0` in the pipeline; `ℚ` division by zero
yields 0, matching the unreachable guard harmlessly.) -/
def detectQualityIssues (col : ColumnProfile) (rowCount : Nat) : ColumnProfile :=
  let issues₁ :=
    if 0 < col.MissingCount then
      let missingPercentage : ℚ := (col.MissingCount : ℚ) / (rowCount : ℚ) * 100
      let severity := if missingPercentage > 20 then 3
                      else if missingPercentage > 5 then 2 else 1
      [{ Type' := "missing_values"
         Description := "Missing values: " ++ toString missingPercentage ++ "%"
         Severity := severity }]
    else []
  let issues₂ :=
    if col.UniqueCount = col.Count && containsID (goToLower col.Name).toList then
      [{ Type' := "likely_id", Description := "Likely ID column", Severity := 1 }]
    else []
  let issues₃ :=
    if col.IsCategorical && !col.TopValues.isEmpty then
      let topValuePercentage : ℚ :=
        ((col.TopValues.headD ⟨"", 0⟩).Count : ℚ) / (col.Count : ℚ) * 100
      if topValuePercentage > 90 then
        [{ Type' := "imbalanced"
           Description := "Imbalanced: top value appears in " ++
             toString topValuePercentage ++ "% of records"
           Severity := 2 }]
      else []
    else []
  { col with QualityIssues := col.QualityIssues ++ issues₁ ++ issues₂ ++ issues₃ }

/-- `collectDatasetQualityIssues`: the two dataset-level rules, appended
in source order. -/
def collectDatasetQualityIssues (profile : DatasetProfile) : DatasetProfile :=
  let issues₁ :=
    if 0 < profile.RowCount ∧ 0 < profile.ColumnCount then
      let totalCells := profile.RowCount * profile.ColumnCount
      let missingPercentage : ℚ := (profile.MissingCells : ℚ) / (totalCells : ℚ) * 100
      if missingPercentage > 5 then
        [{ Type' := "high_missing_values"
           Description := "High overall missing value rate: " ++
             toString missingPercentage ++ "%"
           Severity := if missingPercentage > 20 then 3 else 2 }]
      else []
    else []
  let issues₂ :=
    if 0 < profile.RowCount ∧ 0 < profile.DuplicateRows then
      let duplicatePercentage : ℚ :=
        (profile.DuplicateRows : ℚ) / (profile.RowCount : ℚ) * 100
      let severity := if duplicatePercentage > 20 then 3
                      else if duplicatePercentage > 5 then 2 else 1
      [{ Type' := "duplicate_rows"
         Description := "Duplicate rows detected: " ++
           toString duplicatePercentage ++ "%"
         Severity := severity }]
    else []
  { profile with QualityIssues := profile.QualityIssues ++ issues₁ ++ issues₂ }

/-! ## Quality scorer (`profile.go`, `CalculateQualityScore`) -/

/-- The missing-cell deduction: `int(missingPercentage * 3)` capped at 30,
taken only when there are cells and a positive missing percentage. -/
def missingPenalty (profile : DatasetProfile) : Int :=
  let totalCells := profile.RowCount * profile.ColumnCount
  if 0 < totalCells then
    let missingPercentage : ℚ := (profile.MissingCells : ℚ) / (totalCells : ℚ) * 100
    if missingPercentage > 0 then
      let penalty := goIntOfFloat (missingPercentage * 3)
      if penalty > 30 then 30 else penalty
    else 0
  else 0

/-- The issue deduction before its cap: dataset-level issues weigh
`severity × 5`, column-level issues weigh `severity × 1`. -/
def issuePenaltyRaw (profile : DatasetProfile) : Int :=
  (profile.QualityIssues.foldl (fun a i => a + (i.Severity : Int) * 5) 0) +
    (profile.Columns.foldl
      (fun a c => c.2.QualityIssues.foldl (fun a' i => a' + (i.Severity : Int)) a) 0)

/-- The issue deduction, capped at 40. -/
def issuePenalty (profile : DatasetProfile) : Int :=
  if issuePenaltyRaw profile > 40 then 40 else issuePenaltyRaw profile

/-- The duplicate-row deduction: `int(duplicatePercentage * 2)` capped at
15, taken only for a positive row count and percentage. -/
def duplicatePenalty (profile : DatasetProfile) : Int :=
  if 0 < profile.RowCount then
    let duplicatePercentage : ℚ :=
      (profile.DuplicateRows : ℚ) / (profile.RowCount : ℚ) * 100
    if duplicatePercentage > 0 then
      let penalty := goIntOfFloat (duplicatePercentage * 2)
      if penalty > 15 then 15 else penalty
    else 0
  else 0

/-- `CalculateQualityScore`: start from 100; return 0 immediately for a
zero-row or zero-column profile; otherwise subtract the three separately
capped deductions and floor the result at 0.  `int(x)` on the nonnegative
percentages is truncation toward zero (`goIntOfFloat`). -/
def CalculateQualityScore (profile : DatasetProfile) : Int :=
  if profile.RowCount = 0 ∨ profile.ColumnCount = 0 then 0
  else
    let score := 100 - missingPenalty profile - issuePenalty profile -
      duplicatePenalty profile
    if score < 0 then 0 else score

/-! ## The single-pass CSV scan (`csv.go`, `ProfileCSV`)

`ProfileCSV` opens the file and drives `encoding/csv`; the embedding
starts from the parsed records (quoting and field splitting are the
collaborator parser's concern, spec §6).  What the embedding does keep
from `csv.Reader` is its field-count validation: the reader pins
`FieldsPerRecord` to the header's field count, and any later record with
a different count makes `Read` return `ErrFieldCount`, which `ProfileCSV`
wraps and returns ("error reading CSV: ..."; the Go message carries a
line number, elided here). -/

/-- Per-column accumulator built during the scan: the ordered list of
non-missing raw values, the value→count frequency table (association list
in first-encounter order) and the missing-cell count. -/
structure ColAcc where
  values : List String
  counts : List (String × Nat)
  missing : Nat
deriving Repr, DecidableEq

/-- Whole-scan accumulator: dataset missing-cell counter plus the
per-column accumulators keyed by header name. -/
structure ScanAcc where
  missingCells : Nat
  cols : List (String × ColAcc)
deriving Repr, DecidableEq

/-- `valueCounts[colName][value]++` (and the row-hash counter): bump an
association-list counter, appending a fresh key with count 1. -/
def bumpCount : List (String × Nat) → String → List (String × Nat)
  | [], v => [(v, 1)]
  | (k, c) :: rest, v =>
    if k = v then (k, c + 1) :: rest else (k, c) :: bumpCount rest v

/-- Update the accumulator of the column named `name` in place. -/
def updateCol (cols : List (String × ColAcc)) (name : String)
    (f : ColAcc → ColAcc) : List (String × ColAcc) :=
  match cols with
  | [] => []
  | (k, a) :: rest =>
    if k = name then (k, f a) :: rest else (k, a) :: updateCol rest name f

/-- The `for i, value := range record` body: skip fields beyond the header
width (`if i >= len(header) { continue }`); an empty field bumps the
column's and the dataset's missing counters; otherwise the raw value is
appended to the column's value list and its frequency count is bumped. -/
def scanFields (header : List String) : Nat → ScanAcc → List String → ScanAcc
  | _, acc, [] => acc
  | i, acc, value :: rest =>
    if header.length ≤ i then scanFields header (i + 1) acc rest
    else
      let colName := header.getD i ""
      if value = "" then
        scanFields header (i + 1)
          { missingCells := acc.missingCells + 1
            cols := updateCol acc.cols colName
              (fun a => { a with missing := a.missing + 1 }) } rest
      else
        scanFields header (i + 1)
          { acc with
            cols := updateCol acc.cols colName
              (fun a => { a with values := a.values ++ [value]
                                 counts := bumpCount a.counts value }) } rest

/-- One accumulator entry per distinct header name (the source registers
`profile.Columns[colName] = &ColumnProfile{...}` for each header field, a
later duplicate overwriting the earlier entry with an identical fresh
one, so the resulting map is one fresh entry per distinct name). -/
def initCols (header : List String) : List (String × ColAcc) :=
  header.foldl
    (fun cols name =>
      if cols.any (fun p => p.1 = name) then cols
      else cols ++ [(name, { values := [], counts := [], missing := 0 })]) []

/-- Duplicate-row count: rows are keyed by `strings.Join(record, "|")`;
every key seen `c > 1` times contributes `c − 1`. -/
def duplicateRows (rows : List (List String)) : Nat :=
  let rowHashes := rows.foldl (fun m r => bumpCount m (String.intercalate "|" r)) []
  rowHashes.foldl (fun t p => if 1 < p.2 then t + (p.2 - 1) else t) 0

/-- Finalisation of one column after the scan (the body of the
`for colName, values := range columnValues` loop): counts, type
inference, flags, top values, numeric statistics for numeric columns and
the column-level issue detector.  `none` propagates the undefined
histogram outcome of `calculateNumericStats`. -/
def finalizeCol (rowCount : Nat) (name : String) (acc : ColAcc) :
    Option ColumnProfile :=
  let values := acc.values
  let dt := inferDataType values
  let isNumeric := dt == "integer" || dt == "float"
  let base : ColumnProfile :=
    { Name := name, DataType := dt, Count := values.length,
      MissingCount := acc.missing, UniqueCount := acc.counts.length,
      Min := none, Max := none, Mean := 0, Median := 0, Variance := 0,
      HistogramBuckets := [], TopValues := getTopValues acc.counts 5,
      IsNumeric := isNumeric,
      IsCategorical := decide (acc.counts.length ≤ rowCount / 10) &&
        decide (acc.counts.length ≤ 100),
      IsDateTime := dt == "datetime",
      IsUnique := acc.counts.length == values.length,
      QualityIssues := [] }
  let withStats : Option ColumnProfile :=
    if isNumeric then
      match calculateNumericStats values with
      | none => none
      | some none => some base
      | some (some s) =>
        some { base with Min := some s.mn, Max := some s.mx, Mean := s.mean,
                         Median := s.median, Variance := s.variance,
                         HistogramBuckets := s.buckets, QualityIssues := s.issues }
    else some base
  withStats.map (fun c => detectQualityIssues c rowCount)

/-- Finalise every column (map iteration order is irrelevant: columns are
independent, and `none` — the panicking outcome of any column — absorbs
the whole run either way). -/
def finalizeCols (rowCount : Nat) :
    List (String × ColAcc) → Option (List (String × ColumnProfile))
  | [] => some []
  | (name, acc) :: rest =>
    match finalizeCol rowCount name acc, finalizeCols rowCount rest with
    | some col, some cols => some ((name, col) :: cols)
    | _, _ => none

/-- `ProfileCSV` from the parsed records.  `filename`/`fileSize` stand for
the `filepath.Base`/`Stat` values obtained at the IO boundary.  Result:
`none` — the run panics (undefined histogram indexing, see
`calculateNumericStats`); `some (Except.error e)` — `ProfileCSV` returns
an error (no header record, or a record whose field count differs from
the header's, which `csv.Reader` rejects before the aggregation loop ever
sees it); `some (Except.ok p)` — the finished profile. -/
def ProfileCSVFromRecords (filename : String) (fileSize : Int)
    (records : List (List String)) : Option (Except String DatasetProfile) :=
  match records with
  | [] => some (Except.error "failed to read CSV header")
  | header :: rows =>
    if rows.all (fun r => r.length == header.length) then
      let scan := rows.foldl (fun acc r => scanFields header 0 acc r)
        { missingCells := 0, cols := initCols header }
      let rowCount := rows.length
      match finalizeCols rowCount scan.cols with
      | none => none
      | some cols =>
        let profile : DatasetProfile :=
          { Filename := filename, FileSize := fileSize, Format := "CSV",
            RowCount := rowCount, ColumnCount := header.length,
            MissingCells := scan.missingCells,
            DuplicateRows := duplicateRows rows,
            Columns := cols, QualityIssues := [], QualityScore := 0,
            CorrelationMatrix := none, Recommendations := [] }
        let profile := collectDatasetQualityIssues profile
        some (Except.ok { profile with QualityScore := CalculateQualityScore profile })
    else some (Except.error "error reading CSV: wrong number of fields")

/-! ## Correlation engine (`correlation.go`) -/

/-- `reconstructNumericValues`: bucket midpoints repeated `Count` times,
then each top value's parsed number repeated its count of times.  A top
value parsing to a non-finite float (`inf`/`nan` literals) would be
appended by Go; such values have no rational counterpart and are outside
the exact-rational idealisation (no claim exercises them). -/
def reconstructNumericValues (col : ColumnProfile) : List ℚ :=
  if !col.IsNumeric || col.HistogramBuckets.isEmpty then []
  else
    let fromBuckets := col.HistogramBuckets.foldl
      (fun acc bucket =>
        if bucket.Count = 0 then acc
        else acc ++ List.replicate bucket.Count
          ((bucket.LowerBound + bucket.UpperBound) / 2)) []
    col.TopValues.foldl
      (fun acc tv =>
        match parseGoFloat? tv.Value with
        | some val => acc ++ List.replicate tv.Count val
        | none => acc) fromBuckets

/-- Fixed-stride down-sampling (`for i := 0; i < n; i += step`). -/
def strided (step : Nat) : List ℚ → List ℚ
  | [] => []
  | a :: rest => a :: strided step (rest.drop (step - 1))
termination_by l => l.length
decreasing_by simp [List.length_drop]; omega

/-- `calculatePearsonCorrelation`.  `math.Sqrt` has no exact rational
counterpart, so the square root is abstracted as the parameter `s`; every
theorem below holds for every `s` with `s 0 = 0` (which IEEE-754 `sqrt`
satisfies).  Series of length over 10000 are first down-sampled with
stride `n/10000`; length mismatch, emptiness and a zero denominator all
return 0. -/
def calculatePearsonCorrelation (s : ℚ → ℚ) (x y : List ℚ) : ℚ :=
  if x.length ≠ y.length ∨ x.length = 0 then 0
  else
    let n₀ := x.length
    let maxSampleSize := 10000
    let p : List ℚ × List ℚ :=
      if maxSampleSize < n₀ then
        let step := n₀ / maxSampleSize
        let step := if step < 1 then 1 else step
        (strided step x, strided step y)
      else (x, y)
    let xs := p.1
    let ys := p.2
    let n : ℚ := (xs.length : ℚ)
    let sumX := xs.foldl (fun a v => a + v) 0
    let sumY := ys.foldl (fun a v => a + v) 0
    let sumXY := (xs.zip ys).foldl (fun a q => a + q.1 * q.2) 0
    let sumX2 := xs.foldl (fun a v => a + v * v) 0
    let sumY2 := ys.foldl (fun a v => a + v * v) 0
    let numerator := n * sumXY - sumX * sumY
    let denominator := s ((n * sumX2 - sumX * sumX) * (n * sumY2 - sumY * sumY))
    if denominator = 0 then 0 else numerator / denominator

/-- Ascending insertion of a column name (`sort.Strings`; Go compares
byte-wise, which on valid UTF-8 coincides with the code-point order Lean
uses). -/
def insStr (x : String) : List String → List String
  | [] => [x]
  | y :: ys => if x < y then x :: y :: ys else y :: insStr x ys

/-- `sort.Strings`. -/
def sortStrings (l : List String) : List String := l.foldr insStr []

/-- Descending-by-magnitude insertion of a correlation pair.  The source
uses `sort.Slice`, which is unstable, so the relative order of pairs of
equal magnitude is unspecified; the embedding picks the stable order (no
claim depends on tie order). -/
def insPair (x : CorrelationPair) : List CorrelationPair → List CorrelationPair
  | [] => [x]
  | y :: ys =>
    if |y.Correlation| < |x.Correlation| then x :: y :: ys else y :: insPair x ys

/-- The `sort.Slice` call on `allPairs`. -/
def sortPairs (l : List CorrelationPair) : List CorrelationPair := l.foldr insPair []

/-- The unordered pairs `(i, j)` with `i < j` of the sorted column list,
in the source's enumeration order. -/
def upperPairs : List String → List (String × String)
  | [] => []
  | c :: rest => rest.map (fun c2 => (c, c2)) ++ upperPairs rest

/-- `CalculateCorrelationMatrix`: collect the numeric columns with
positive count (map iteration order is irrelevant — the list is sorted
before use and reconstruction is per-column), require at least two, sort
the names, reconstruct each column's approximate sample, fill the
symmetric matrix (diagonal pinned to 1.0 without computation) and rank
the top pairs (take 10, keep magnitude > 0.1). -/
def CalculateCorrelationMatrix (s : ℚ → ℚ) (profile : DatasetProfile) :
    Option CorrelationMatrix :=
  let numericCols := profile.Columns.filter
    (fun p => p.2.IsNumeric && decide (0 < p.2.Count))
  let numericData : String → List ℚ := fun name =>
    match numericCols.find? (fun p => p.1 == name) with
    | some p => reconstructNumericValues p.2
    | none => []
  if numericCols.length < 2 then none
  else
    let cols := sortStrings (numericCols.map (·.1))
    let values := cols.map fun c1 =>
      (c1, cols.map fun c2 =>
        (c2, if c1 = c2 then 1
             else calculatePearsonCorrelation s (numericData c1) (numericData c2)))
    let allPairs := (upperPairs cols).map fun pr =>
      { Column1 := pr.1, Column2 := pr.2,
        Correlation := calculatePearsonCorrelation s (numericData pr.1) (numericData pr.2) :
        CorrelationPair }
    let sorted := sortPairs allPairs
    let topLimit := if allPairs.length < 10 then allPairs.length else 10
    some { Columns := cols, Values := values,
           TopPairs := (sorted.take topLimit).filter
             (fun pr => decide ((0.1 : ℚ) < |pr.Correlation|)) }

/-! ## The orchestrator (`profile.go`, `ProfileDataset`) -/

/-- `filepath.Ext`: the suffix beginning at the final dot in the final
slash-separated element of the path; empty when that element has no dot. -/
def goExtAux (acc : List Char) : List Char → String
  | [] => ""
  | c :: rest =>
    if c = '/' then ""
    else if c = '.' then String.mk ('.' :: acc)
    else goExtAux (c :: acc) rest

/-- `filepath.Ext(filePath)`. -/
def goExt (path : String) : String := goExtAux [] path.toList.reverse

/-- The recommendation string built for a strong pair (`fmt.Sprintf` with
the coefficient `%.2f`; the numeric rendering is elided — no claim reads
the text, only which recommendations exist). -/
def mkRecommendation (p : CorrelationPair) : String :=
  if 0 < p.Correlation then
    "Strong positive correlation between " ++ p.Column1 ++ " and " ++ p.Column2
  else
    "Strong negative correlation between " ++ p.Column1 ++ " and " ++ p.Column2

/-- The post-dispatch steps of `ProfileDataset` applied to every
successful outcome: recompute the quality score, attach the correlation
matrix, and append a recommendation for every top pair of magnitude at
least 0.7. -/
def postProcessProfile (s : ℚ → ℚ) (profile : DatasetProfile) : DatasetProfile :=
  let profile := { profile with QualityScore := CalculateQualityScore profile }
  let profile := { profile with CorrelationMatrix := CalculateCorrelationMatrix s profile }
  match profile.CorrelationMatrix with
  | some m =>
    if 0 < m.TopPairs.length then
      { profile with
        Recommendations := profile.Recommendations ++
          (m.TopPairs.filter (fun pr => decide ((0.7 : ℚ) ≤ |pr.Correlation|))).map
            mkRecommendation }
    else profile
  | none => profile

/-- The degenerate profile built for an unsupported format: every field
the struct literal omits keeps its Go zero value (zero rows and columns,
no columns map, nil matrix). -/
def unsupportedProfile (filePath fmt desc : String) : DatasetProfile :=
  { Filename := filePath, FileSize := 0, Format := fmt, RowCount := 0,
    ColumnCount := 0, MissingCells := 0, DuplicateRows := 0, Columns := [],
    QualityIssues := [{ Type' := "unsupported_format", Description := desc,
                        Severity := 2 }],
    QualityScore := 0, CorrelationMatrix := none, Recommendations := [] }

/-- `ProfileDataset` (the `CorrelationMatrix`-bearing variant): dispatch
on the lower-cased extension — `.csv` and every unrecognised extension go
through `ProfileCSV`, `.parquet`/`.json` build the degenerate
unsupported-format profile — propagate a CSV error unchanged, and
post-process every successful profile.  The CSV path's IO outcome is the
parameter `csvResult` (a panic of `ProfileCSV` would propagate and is not
modelled at this level; no claim needs it). -/
def ProfileDataset (s : ℚ → ℚ) (csvResult : Except String DatasetProfile)
    (filePath : String) : Except String DatasetProfile :=
  let extension := goToLower (goExt filePath)
  let outcome : Except String DatasetProfile :=
    if extension = ".csv" then csvResult
    else if extension = ".parquet" then
      Except.ok (unsupportedProfile filePath "Parquet" "Parquet support is coming soon")
    else if extension = ".json" then
      Except.ok (unsupportedProfile filePath "JSON" "JSON support is coming soon")
    else csvResult
  match outcome with
  | Except.error e => Except.error e
  | Except.ok profile => Except.ok (postProcessProfile s profile)

/-! ## Quality-scorer theorems (claims C1 and C8) -/

theorem goIntOfFloat_nonneg {q : ℚ} (h : 0 ≤ q) : 0 ≤ goIntOfFloat q :=
  Int.tdiv_nonneg (Rat.num_nonneg.mpr h) (Int.ofNat_nonneg _)

theorem missingPenalty_bounds (p : DatasetProfile) :
    0 ≤ missingPenalty p ∧ missingPenalty p ≤ 30 := by
  simp only [missingPenalty]
  split_ifs with h1 h2 h3
  · exact ⟨by norm_num, le_refl 30⟩
  · refine ⟨goIntOfFloat_nonneg (by positivity), by omega⟩
  · exact ⟨le_refl 0, by norm_num⟩
  · exact ⟨le_refl 0, by norm_num⟩

theorem foldl_sev5_nonneg (l : List QualityIssue) :
    ∀ a : Int, 0 ≤ a → 0 ≤ l.foldl (fun a i => a + (i.Severity : Int) * 5) a := by
  induction l with
  | nil => intro a ha; simpa using ha
  | cons i rest ih =>
    intro a ha
    exact ih _ (by positivity)

theorem foldl_sev1_nonneg (l : List QualityIssue) :
    ∀ a : Int, 0 ≤ a → 0 ≤ l.foldl (fun a' i => a' + (i.Severity : Int)) a := by
  induction l with
  | nil => intro a ha; simpa using ha
  | cons i rest ih =>
    intro a ha
    exact ih _ (by positivity)

theorem foldl_cols_nonneg (l : List (String × ColumnProfile)) :
    ∀ a : Int, 0 ≤ a →
      0 ≤ l.foldl
        (fun a c => c.2.QualityIssues.foldl (fun a' i => a' + (i.Severity : Int)) a) a := by
  induction l with
  | nil => intro a ha; simpa using ha
  | cons c rest ih =>
    intro a ha
    exact ih _ (foldl_sev1_nonneg _ _ ha)

theorem issuePenalty_bounds (p : DatasetProfile) :
    0 ≤ issuePenalty p ∧ issuePenalty p ≤ 40 := by
  have hraw : 0 ≤ issuePenaltyRaw p := by
    unfold issuePenaltyRaw
    have h1 := foldl_sev5_nonneg p.QualityIssues 0 (le_refl 0)
    have h2 := foldl_cols_nonneg p.Columns 0 (le_refl 0)
    omega
  simp only [issuePenalty]
  split_ifs with h
  · exact ⟨by norm_num, le_refl 40⟩
  · exact ⟨hraw, by omega⟩

theorem duplicatePenalty_bounds (p : DatasetProfile) :
    0 ≤ duplicatePenalty p ∧ duplicatePenalty p ≤ 15 := by
  simp only [duplicatePenalty]
  split_ifs with h1 h2 h3
  · exact ⟨by norm_num, le_refl 15⟩
  · refine ⟨goIntOfFloat_nonneg (by positivity), by omega⟩
  · exact ⟨le_refl 0, by norm_num⟩
  · exact ⟨le_refl 0, by norm_num⟩

/-- C1: for every profile, `CalculateQualityScore` returns an integer in
[0, 100], and it returns exactly 0 whenever the profile's `rowCount` is 0
or its `columnCount` is 0. -/
theorem calculateQualityScore_in_range_and_zero_on_degenerate (p : DatasetProfile) :
    (0 ≤ CalculateQualityScore p ∧ CalculateQualityScore p ≤ 100) ∧
      ((p.RowCount = 0 ∨ p.ColumnCount = 0) → CalculateQualityScore p = 0) := by
  obtain ⟨hm0, hm30⟩ := missingPenalty_bounds p
  obtain ⟨hi0, hi40⟩ := issuePenalty_bounds p
  obtain ⟨hd0, hd15⟩ := duplicatePenalty_bounds p
  simp only [CalculateQualityScore]
  split_ifs with h h2
  · exact ⟨⟨le_refl 0, by norm_num⟩, fun _ => rfl⟩
  · exact ⟨⟨le_refl 0, by norm_num⟩, fun hz => absurd hz h⟩
  · exact ⟨⟨by omega, by omega⟩, fun hz => absurd hz h⟩

/-- Degenerate zero-row profile used to witness C1. -/
def degenerateProfile : DatasetProfile :=
  { Filename := "empty.csv", FileSize := 0, Format := "CSV", RowCount := 0,
    ColumnCount := 0, MissingCells := 0, DuplicateRows := 0, Columns := [],
    QualityIssues := [], QualityScore := 0, CorrelationMatrix := none,
    Recommendations := [] }

/-- Witness for C1 at a concrete degenerate profile. -/
theorem calculateQualityScore_in_range_witness :
    (degenerateProfile.RowCount = 0 ∨ degenerateProfile.ColumnCount = 0) ∧
      CalculateQualityScore degenerateProfile = 0 :=
  ⟨Or.inl rfl,
   (calculateQualityScore_in_range_and_zero_on_degenerate degenerateProfile).2
     (Or.inl rfl)⟩

/-- C8: for every profile with positive row and column counts, the three
caps (30 + 40 + 15 = 85) keep the score at or above 100 − 85 = 15. -/
theorem calculateQualityScore_at_least_15 (p : DatasetProfile)
    (hr : p.RowCount ≠ 0) (hc : p.ColumnCount ≠ 0) :
    15 ≤ CalculateQualityScore p := by
  obtain ⟨hm0, hm30⟩ := missingPenalty_bounds p
  obtain ⟨hi0, hi40⟩ := issuePenalty_bounds p
  obtain ⟨hd0, hd15⟩ := duplicatePenalty_bounds p
  simp only [CalculateQualityScore]
  split_ifs with h h2
  · exact absurd h (by tauto)
  · omega
  · omega

/-- All-penalties-maxed profile used to witness C8: 100% missing cells,
many severe issues, all rows duplicated. -/
def worstCaseProfile : DatasetProfile :=
  { Filename := "bad.csv", FileSize := 0, Format := "CSV", RowCount := 10,
    ColumnCount := 2, MissingCells := 20, DuplicateRows := 9, Columns := [],
    QualityIssues :=
      [{ Type' := "high_missing_values", Description := "d", Severity := 3 },
       { Type' := "duplicate_rows", Description := "d", Severity := 3 },
       { Type' := "outliers", Description := "d", Severity := 3 }],
    QualityScore := 0, CorrelationMatrix := none, Recommendations := [] }

/-- Witness for C8 at a concrete profile whose three deductions all hit
their caps (score exactly 15). -/
theorem calculateQualityScore_at_least_15_witness :
    15 ≤ CalculateQualityScore worstCaseProfile :=
  calculateQualityScore_at_least_15 worstCaseProfile (by decide) (by decide)

end DataSleuth






namespace DataSleuth

/-! ## Type-inference theorems (claim C2) -/

end DataSleuth

namespace DataSleuth

/-! ## Pearson-correlation theorems (claim C5) -/

theorem strided_length_congr (step : Nat) :
    ∀ (n : Nat) (l₁ l₂ : List ℚ), l₁.length ≤ n → l₁.length = l₂.length →
      (strided step l₁).length = (strided step l₂).length := by
  intro n
  induction n with
  | zero =>
    intro l₁ l₂ h1 h2
    cases l₁ with
    | nil => cases l₂ with
      | nil => rfl
      | cons b bs => simp at h2
    | cons a as => simp at h1
  | succ n ih =>
    intro l₁ l₂ h1 h2
    cases l₁ with
    | nil => cases l₂ with
      | nil => rfl
      | cons b bs => simp at h2
    | cons a as =>
      cases l₂ with
      | nil => simp at h2
      | cons b bs =>
        simp only [strided, List.length_cons]
        have := ih (as.drop (step - 1)) (bs.drop (step - 1))
          (by rw [List.length_drop]; simp at h1; omega)
          (by rw [List.length_drop, List.length_drop]; simp at h2; omega)
        omega

end DataSleuth

namespace DataSleuth

/-! ## Orchestrator theorems (claims C6 and C10) -/

theorem postProcessProfile_fields (s : ℚ → ℚ) (p : DatasetProfile) :
    (postProcessProfile s p).RowCount = p.RowCount ∧
      (postProcessProfile s p).ColumnCount = p.ColumnCount ∧
      (postProcessProfile s p).Format = p.Format ∧
      (postProcessProfile s p).QualityIssues = p.QualityIssues ∧
      (postProcessProfile s p).Columns = p.Columns := by
  simp only [postProcessProfile]
  split
  · split_ifs <;> exact ⟨rfl, rfl, rfl, rfl, rfl⟩
  · exact ⟨rfl, rfl, rfl, rfl, rfl⟩

/-- C6: a `.parquet` or `.json` input yields, without error, a profile
with zero rows and columns, the detected format label, and exactly one
dataset-level issue of type `"unsupported_format"` with severity 2 and a
nonempty description. -/
theorem profileDataset_unsupported_format (s : ℚ → ℚ)
    (csvResult : Except String DatasetProfile) (filePath : String)
    (h : goToLower (goExt filePath) = ".parquet" ∨ goToLower (goExt filePath) = ".json") :
    ∃ p, ProfileDataset s csvResult filePath = Except.ok p ∧
      p.RowCount = 0 ∧ p.ColumnCount = 0 ∧
      (goToLower (goExt filePath) = ".parquet" → p.Format = "Parquet") ∧
      (goToLower (goExt filePath) = ".json" → p.Format = "JSON") ∧
      p.QualityIssues.length = 1 ∧
      ∀ i ∈ p.QualityIssues,
        i.Type' = "unsupported_format" ∧ i.Severity = 2 ∧ i.Description ≠ "" := by
  rcases h with h | h
  · refine ⟨postProcessProfile s
      (unsupportedProfile filePath "Parquet" "Parquet support is coming soon"),
      ?_, ?_, ?_, ?_, ?_, ?_, ?_⟩
    · simp only [ProfileDataset, h]
      simp
    · exact (postProcessProfile_fields s _).1.trans rfl
    · exact (postProcessProfile_fields s _).2.1.trans rfl
    · intro _; exact (postProcessProfile_fields s _).2.2.1.trans rfl
    · intro hj; rw [h] at hj; exact absurd hj (by decide)
    · rw [(postProcessProfile_fields s _).2.2.2.1]; rfl
    · rw [(postProcessProfile_fields s _).2.2.2.1]
      intro i hi
      simp only [unsupportedProfile, List.mem_singleton] at hi
      subst hi
      exact ⟨rfl, rfl, by decide⟩
  · refine ⟨postProcessProfile s
      (unsupportedProfile filePath "JSON" "JSON support is coming soon"),
      ?_, ?_, ?_, ?_, ?_, ?_, ?_⟩
    · simp only [ProfileDataset, h]
      simp
    · exact (postProcessProfile_fields s _).1.trans rfl
    · exact (postProcessProfile_fields s _).2.1.trans rfl
    · intro hj; rw [h] at hj; exact absurd hj (by decide)
    · intro _; exact (postProcessProfile_fields s _).2.2.1.trans rfl
    · rw [(postProcessProfile_fields s _).2.2.2.1]; rfl
    · rw [(postProcessProfile_fields s _).2.2.2.1]
      intro i hi
      simp only [unsupportedProfile, List.mem_singleton] at hi
      subst hi
      exact ⟨rfl, rfl, by decide⟩

/-- Witness for C6 at the concrete path `"data.parquet"` (with an
arbitrary erroring CSV outcome, which the parquet branch never consults). -/
theorem profileDataset_unsupported_format_witness :
    ∃ p, ProfileDataset id (Except.error "io") "data.parquet" = Except.ok p ∧
      p.RowCount = 0 ∧ p.ColumnCount = 0 ∧
      (goToLower (goExt "data.parquet") = ".parquet" → p.Format = "Parquet") ∧
      (goToLower (goExt "data.parquet") = ".json" → p.Format = "JSON") ∧
      p.QualityIssues.length = 1 ∧
      ∀ i ∈ p.QualityIssues,
        i.Type' = "unsupported_format" ∧ i.Severity = 2 ∧ i.Description ≠ "" :=
  profileDataset_unsupported_format id (Except.error "io") "data.parquet"
    (Or.inl (by decide))

/-- A minimal numeric column, used to build the C10 counterexample. -/
def corrCexColumn (name : String) : ColumnProfile :=
  { Name := name, DataType := "integer", Count := 1, MissingCount := 0,
    UniqueCount := 1, Min := none, Max := none, Mean := 0, Median := 0,
    Variance := 0, HistogramBuckets := [], TopValues := [], IsNumeric := true,
    IsCategorical := false, IsDateTime := false, IsUnique := true,
    QualityIssues := [] }

/-- A CSV-produced profile with two numeric columns; `ProfileCSV` always
leaves `CorrelationMatrix` nil, and its quality score for this profile is
100, so the only post-processing effect is the attached matrix. -/
def corrCexProfile : DatasetProfile :=
  { Filename := "data.txt", FileSize := 0, Format := "CSV", RowCount := 1,
    ColumnCount := 2, MissingCells := 0, DuplicateRows := 0,
    Columns := [("a", corrCexColumn "a"), ("b", corrCexColumn "b")],
    QualityIssues := [], QualityScore := 100, CorrelationMatrix := none,
    Recommendations := [] }

/-- The correlation matrix attached by post-processing depends only on
the columns, so the intermediate quality-score update is transparent. -/
theorem postProcess_corrMatrix (s : ℚ → ℚ) (p : DatasetProfile) :
    (postProcessProfile s p).CorrelationMatrix =
      CalculateCorrelationMatrix s { p with QualityScore := CalculateQualityScore p } := by
  simp only [postProcessProfile]
  split
  · split_ifs <;> simp_all
  · simp_all

/-- Counterexample to C10 as stated: for the extension `.txt` the result
does not *equal* `ProfileCSV`'s result — `ProfileDataset` post-processes
it, here attaching a correlation matrix where `ProfileCSV` had none. -/
theorem profileDataset_not_plain_csv_result :
    ProfileDataset id (Except.ok corrCexProfile) "data.txt" ≠
      Except.ok corrCexProfile := by
  intro h
  have h1 : ProfileDataset id (Except.ok corrCexProfile) "data.txt" =
      Except.ok (postProcessProfile id corrCexProfile) := by
    simp only [ProfileDataset]
    rw [if_neg (by decide), if_neg (by decide), if_neg (by decide)]
  rw [h1] at h
  have h2 : postProcessProfile id corrCexProfile = corrCexProfile :=
    Except.ok.inj h
  have h3 := congrArg DatasetProfile.CorrelationMatrix h2
  rw [postProcess_corrMatrix] at h3
  have h4 : (CalculateCorrelationMatrix id
      { corrCexProfile with QualityScore := CalculateQualityScore corrCexProfile }).isSome
        = true := by decide
  rw [h3] at h4
  exact absurd h4 (by decide)

/-- C10 (amended): for every path whose lower-cased extension is none of
`.csv`, `.parquet`, `.json`, `ProfileDataset` routes through the CSV
profiler rather than the unsupported-format path: a CSV error is returned
unchanged, and a CSV success profile is returned after the shared
post-processing step (quality score recomputed, correlation matrix
attached, strong-correlation recommendations appended), which preserves
the profile's row and column counts, columns, issues and format. -/
theorem profileDataset_other_ext_routes_csv (s : ℚ → ℚ)
    (csvResult : Except String DatasetProfile) (filePath : String)
    (h1 : goToLower (goExt filePath) ≠ ".csv")
    (h2 : goToLower (goExt filePath) ≠ ".parquet")
    (h3 : goToLower (goExt filePath) ≠ ".json") :
    (∀ e, csvResult = Except.error e →
        ProfileDataset s csvResult filePath = Except.error e) ∧
      (∀ p, csvResult = Except.ok p →
        ProfileDataset s csvResult filePath = Except.ok (postProcessProfile s p) ∧
          (postProcessProfile s p).RowCount = p.RowCount ∧
          (postProcessProfile s p).ColumnCount = p.ColumnCount ∧
          (postProcessProfile s p).Columns = p.Columns ∧
          (postProcessProfile s p).QualityIssues = p.QualityIssues ∧
          (postProcessProfile s p).Format = p.Format) := by
  constructor
  · intro e he
    subst he
    simp only [ProfileDataset, if_neg h1, if_neg h2, if_neg h3]
  · intro p hp
    subst hp
    refine ⟨?_, (postProcessProfile_fields s p).1,
      (postProcessProfile_fields s p).2.1,
      (postProcessProfile_fields s p).2.2.2.2,
      (postProcessProfile_fields s p).2.2.2.1,
      (postProcessProfile_fields s p).2.2.1⟩
    simp only [ProfileDataset, if_neg h1, if_neg h2, if_neg h3]

/-- Witness for the amended C10 at the concrete extension `.txt` with an
erroring CSV outcome: the error comes back unchanged. -/
theorem profileDataset_other_ext_routes_csv_witness :
    ProfileDataset id (Except.error "boom") "w.txt" = Except.error "boom" :=
  (profileDataset_other_ext_routes_csv id (Except.error "boom") "w.txt"
      (by decide) (by decide) (by decide)).1 "boom" rfl

end DataSleuth

namespace DataSleuth

/-! ## Histogram theorems (claims C3 and C4) -/

/-- C4 (code evaluation at the failing input): a single-value numeric
column — the simplest `min == max` instance — drives
`calculateNumericStats` into the zero-bucket-width division `0.0/0.0`,
whose `int(NaN)` conversion is implementation-dependent in Go (out-of-range
panic on amd64) rather than the clamped bucket 0 the claim states. -/
theorem constant_column_histogram_undefined :
    calculateNumericStats ["7"] = none := by decide

end DataSleuth

namespace DataSleuth

/-! ## Row-scan theorems (claim C7) -/

theorem scanFields_out_of_range (header : List String) :
    ∀ (record : List String) (i : Nat) (acc : ScanAcc),
      header.length ≤ i → scanFields header i acc record = acc := by
  intro record
  induction record with
  | nil => intro i acc _; rfl
  | cons v rest ih =>
    intro i acc h
    simp only [scanFields, if_pos h]
    exact ih (i + 1) acc (by omega)

/-- Counterexample to C7 as stated: a data row with one more field than
the two-column header makes `ProfileCSV` fail with the CSV reader's
field-count error — the row is not silently truncated. -/
theorem profileCSV_fails_on_extra_fields :
    ProfileCSVFromRecords "t.csv" 0 [["a", "b"], ["1", "2", "3"]] =
      some (Except.error "error reading CSV: wrong number of fields") := by rfl

/-- C7 (amended): a record whose field count differs from the header's
aborts `ProfileCSV` with the reader's field-count error before the
aggregation loop sees it; and the aggregation loop itself ignores fields
beyond the header width — scanning a record is the same as scanning the
record truncated to the header width, so if a longer record ever reached
the loop its extra fields would be dropped silently while the in-range
fields still contribute. -/
theorem profileCSV_field_count_mismatch_and_truncation :
    (∀ (fname : String) (fsz : Int) (header : List String)
        (rows : List (List String)),
      (∃ r ∈ rows, r.length ≠ header.length) →
        ProfileCSVFromRecords fname fsz (header :: rows) =
          some (Except.error "error reading CSV: wrong number of fields")) ∧
      (∀ (header : List String) (record : List String) (i : Nat) (acc : ScanAcc),
        scanFields header i acc record =
          scanFields header i acc (record.take (header.length - i))) := by
  constructor
  · intro fname fsz header rows h
    obtain ⟨r, hr, hlen⟩ := h
    have hall : ¬ (rows.all (fun r => r.length == header.length) = true) := by
      intro hall
      have h2 := List.all_eq_true.mp hall r hr
      simp at h2
      exact hlen h2
    simp only [ProfileCSVFromRecords, if_neg hall]
  · intro header record
    induction record with
    | nil => intro i acc; rw [List.take_nil]
    | cons v rest ih =>
      intro i acc
      by_cases hle : header.length ≤ i
      · have h0 : header.length - i = 0 := by omega
        rw [h0, List.take_zero]
        simp only [scanFields, if_pos hle]
        exact scanFields_out_of_range header rest (i + 1) acc (by omega)
      · obtain ⟨k, hk⟩ : ∃ k, header.length - i = k + 1 := ⟨header.length - i - 1, by omega⟩
        have hk' : header.length - (i + 1) = k := by omega
        rw [hk, List.take_succ_cons]
        simp only [scanFields, if_neg hle]
        split_ifs with hv
        · rw [ih (i + 1) _, hk']
        · rw [ih (i + 1) _, hk']

/-- Witness for the amended C7: a concrete four-field row against a
two-field header errors out, and a concrete scan of a three-field record
against a one-field header equals the scan of its one-field truncation. -/
theorem profileCSV_field_count_witness :
    ProfileCSVFromRecords "t.csv" 0 [["h1", "h2"], ["1", "2", "3", "4"]] =
        some (Except.error "error reading CSV: wrong number of fields") ∧
      scanFields ["h1"] 0 { missingCells := 0, cols := initCols ["h1"] }
          ["x", "y", "z"] =
        scanFields ["h1"] 0 { missingCells := 0, cols := initCols ["h1"] }
          (["x", "y", "z"].take (["h1"].length - 0)) :=
  ⟨profileCSV_field_count_mismatch_and_truncation.1 "t.csv" 0 ["h1", "h2"]
      [["1", "2", "3", "4"]] ⟨["1", "2", "3", "4"], by decide, by decide⟩,
   profileCSV_field_count_mismatch_and_truncation.2 ["h1"] ["x", "y", "z"] 0 _⟩

end DataSleuth

namespace DataSleuth

/-! ## All-missing-column theorems (claim C9) -/

/-- Association-list lookup by string key (the proof-side view of the Go
map accesses, specialised to `=` so the proofs stay elementary). -/
def lookupS {α : Type} (c : String) : List (String × α) → Option α
  | [] => none
  | (k, v) :: rest => if k = c then some v else lookupS c rest

/-- The parts of a column accumulator the all-missing claim constrains:
the value list and the frequency table (the missing counter may grow). -/
def colAccView (o : Option ColAcc) : Option (List String × List (String × Nat)) :=
  o.map fun a => (a.values, a.counts)

theorem lookupS_updateCol_ne {name c : String} (h : name ≠ c)
    (cols : List (String × ColAcc)) (f : ColAcc → ColAcc) :
    lookupS c (updateCol cols name f) = lookupS c cols := by
  induction cols with
  | nil => rfl
  | cons p rest ih =>
    obtain ⟨k, a⟩ := p
    simp only [updateCol]
    by_cases hk : k = name
    · subst hk
      rw [if_pos rfl]
      simp only [lookupS, if_neg h]
    · rw [if_neg hk]
      simp only [lookupS]
      by_cases hkc : k = c
      · rw [if_pos hkc, if_pos hkc]
      · rw [if_neg hkc, if_neg hkc]
        exact ih

theorem lookupS_updateCol_eq (c : String) (cols : List (String × ColAcc))
    (f : ColAcc → ColAcc) :
    lookupS c (updateCol cols c f) = (lookupS c cols).map f := by
  induction cols with
  | nil => rfl
  | cons p rest ih =>
    obtain ⟨k, a⟩ := p
    simp only [updateCol]
    by_cases hk : k = c
    · rw [if_pos hk]
      simp only [lookupS, if_pos hk, Option.map_some']
    · rw [if_neg hk]
      simp only [lookupS, if_neg hk]
      exact ih

theorem scanFields_allmissing (header : List String) (c : String) :
    ∀ (record : List String) (i : Nat) (acc : ScanAcc),
      (∀ k, header[k]? = some c → i ≤ k → record[k - i]? = some "") →
      colAccView (lookupS c (scanFields header i acc record).cols) =
        colAccView (lookupS c acc.cols) := by
  intro record
  induction record with
  | nil => intro i acc _; rfl
  | cons v rest ih =>
    intro i acc hmiss
    have hshift : ∀ k, header[k]? = some c → i + 1 ≤ k → rest[k - (i + 1)]? = some "" := by
      intro k hk hik
      have h1 := hmiss k hk (by omega)
      have hki : k - i = (k - (i + 1)) + 1 := by omega
      rw [hki, List.getElem?_cons_succ] at h1
      exact h1
    by_cases hle : header.length ≤ i
    · simp only [scanFields, if_pos hle]
      exact ih (i + 1) acc hshift
    · have hlt : i < header.length := by omega
      simp only [scanFields, if_neg hle]
      by_cases hc : header.getD i "" = c
      · have hgi : header[i]? = some c := by
          rw [List.getElem?_eq_getElem hlt]
          rw [List.getD_eq_getElem?_getD, List.getElem?_eq_getElem hlt] at hc
          simpa using hc
        have hv : v = "" := by
          have h0 := hmiss i hgi (le_refl i)
          rw [Nat.sub_self, List.getElem?_cons_zero] at h0
          exact Option.some.inj h0
        rw [if_pos hv]
        refine (ih (i + 1) _ hshift).trans ?_
        simp only [hc, lookupS_updateCol_eq]
        cases lookupS c acc.cols <;> rfl
      · split_ifs with hv
        · refine (ih (i + 1) _ hshift).trans ?_
          simp only [lookupS_updateCol_ne hc]
        · refine (ih (i + 1) _ hshift).trans ?_
          simp only [lookupS_updateCol_ne hc]

theorem scan_rows_allmissing (header : List String) (c : String)
    (rows : List (List String))
    (hmiss : ∀ r ∈ rows, ∀ k, k < header.length →
      header[k]? = some c → r[k]? = some "") :
    ∀ acc : ScanAcc,
      colAccView (lookupS c
        (rows.foldl (fun acc r => scanFields header 0 acc r) acc).cols) =
        colAccView (lookupS c acc.cols) := by
  induction rows with
  | nil => intro acc; rfl
  | cons r rest ih =>
    intro acc
    rw [List.foldl_cons]
    refine (ih (fun r' hr' => hmiss r' (List.mem_cons_of_mem _ hr')) _).trans ?_
    apply scanFields_allmissing
    intro k hk _
    have hklen : k < header.length := by
      by_contra hge
      rw [List.getElem?_eq_none (by omega)] at hk
      exact Option.noConfusion hk
    have := hmiss r (List.mem_cons_self _ _) k hklen hk
    simpa using this

theorem lookupS_append {α : Type} (c : String) (l₁ l₂ : List (String × α)) :
    lookupS c (l₁ ++ l₂) =
      match lookupS c l₁ with
      | some a => some a
      | none => lookupS c l₂ := by
  induction l₁ with
  | nil => rfl
  | cons p rest ih =>
    obtain ⟨k, a⟩ := p
    simp only [List.cons_append, lookupS]
    by_cases hk : k = c
    · rw [if_pos hk, if_pos hk]
    · rw [if_neg hk, if_neg hk]
      exact ih

theorem lookupS_isSome_of_any {α : Type} (c : String) (cols : List (String × α))
    (h : cols.any (fun p => p.1 = c) = true) : (lookupS c cols).isSome = true := by
  induction cols with
  | nil => simp at h
  | cons p rest ih =>
    obtain ⟨k, a⟩ := p
    simp only [List.any_cons, Bool.or_eq_true] at h
    simp only [lookupS]
    by_cases hk : k = c
    · rw [if_pos hk]; rfl
    · rw [if_neg hk]
      apply ih
      rcases h with h | h
      · exact absurd (of_decide_eq_true h) hk
      · exact h

theorem initCols_lookup (c : String) (header : List String) :
    ∀ cols₀ : List (String × ColAcc),
      lookupS c (header.foldl
        (fun cols name =>
          if cols.any (fun p => p.1 = name) then cols
          else cols ++ [(name, { values := [], counts := [], missing := 0 })]) cols₀) =
        match lookupS c cols₀ with
        | some a => some a
        | none =>
          if c ∈ header then some { values := [], counts := [], missing := 0 }
          else none := by
  induction header with
  | nil =>
    intro cols₀
    cases hl : lookupS c cols₀ <;> simp [hl]
  | cons name rest ih =>
    intro cols₀
    rw [List.foldl_cons, ih]
    by_cases hany : cols₀.any (fun p => p.1 = name) = true
    · rw [if_pos hany]
      by_cases hcn : c = name
      · subst hcn
        have hs := lookupS_isSome_of_any c cols₀ hany
        cases hl : lookupS c cols₀ with
        | none => rw [hl] at hs; simp at hs
        | some a => simp
      · cases hl : lookupS c cols₀ with
        | none => simp [List.mem_cons, hcn]
        | some a => simp
    · rw [if_neg hany, lookupS_append]
      cases hl : lookupS c cols₀ with
      | some a => simp
      | none =>
        simp only [lookupS]
        by_cases hcn : name = c
        · rw [if_pos hcn]
          subst hcn
          simp
        · rw [if_neg hcn]
          have : ¬ c = name := fun h => hcn h.symm
          simp [List.mem_cons, this]

theorem finalizeCols_lookup (rowCount : Nat) :
    ∀ (cols : List (String × ColAcc)) (out : List (String × ColumnProfile))
      (c : String) (a : ColAcc),
      finalizeCols rowCount cols = some out → lookupS c cols = some a →
      ∃ col, lookupS c out = some col ∧ finalizeCol rowCount c a = some col := by
  intro cols
  induction cols with
  | nil => intro out c a _ hl; exact Option.noConfusion hl
  | cons p rest ih =>
    obtain ⟨k, a'⟩ := p
    intro out c a hf hl
    simp only [finalizeCols] at hf
    rcases h1 : finalizeCol rowCount k a' with - | col₁ <;> rw [h1] at hf
    · exact Option.noConfusion hf
    rcases h2 : finalizeCols rowCount rest with - | out' <;> rw [h2] at hf
    · exact Option.noConfusion hf
    have hout : out = (k, col₁) :: out' := (Option.some.inj hf).symm
    subst hout
    simp only [lookupS] at hl ⊢
    by_cases hk : k = c
    · rw [if_pos hk] at hl ⊢
      have ha : a' = a := Option.some.inj hl
      subst ha
      subst hk
      exact ⟨col₁, rfl, h1⟩
    · rw [if_neg hk] at hl ⊢
      exact ih out' c a h2 hl

theorem finalizeCol_empty (rowCount : Nat) (name : String) (m : Nat) :
    ∃ col, finalizeCol rowCount name { values := [], counts := [], missing := m } =
        some col ∧
      col.DataType = "unknown" ∧ col.Count = 0 ∧ col.UniqueCount = 0 ∧
      col.IsUnique = true ∧ col.HistogramBuckets = [] ∧ col.Min = none ∧
      col.Max = none :=
  ⟨_, rfl, rfl, rfl, rfl, rfl, rfl, rfl, rfl⟩

theorem collectDataset_Columns (q : DatasetProfile) :
    (collectDatasetQualityIssues q).Columns = q.Columns := rfl

/-- C9: in a profile produced by the CSV pipeline, a column whose cells
are all missing finalises with `DataType = "unknown"`, `Count = 0`,
`UniqueCount = 0`, `IsUnique = true`, and no numeric statistics or
histogram (`Min`/`Max` unset, empty bucket list). -/
theorem allmissing_column_finalized (fname : String) (fsz : Int)
    (header : List String) (rows : List (List String)) (c : String)
    (hc : c ∈ header)
    (hmiss : ∀ r ∈ rows, ∀ k, k < header.length →
      header[k]? = some c → r[k]? = some "") :
    ∀ p, ProfileCSVFromRecords fname fsz (header :: rows) = some (Except.ok p) →
      ∃ col, lookupS c p.Columns = some col ∧
        col.DataType = "unknown" ∧ col.Count = 0 ∧ col.UniqueCount = 0 ∧
        col.IsUnique = true ∧ col.HistogramBuckets = [] ∧ col.Min = none ∧
        col.Max = none := by
  intro p hp
  simp only [ProfileCSVFromRecords] at hp
  by_cases hall : rows.all (fun r => r.length == header.length) = true
  case neg =>
    rw [if_neg hall] at hp
    exact Except.noConfusion (Option.some.inj hp)
  rw [if_pos hall] at hp
  rcases hfc : finalizeCols rows.length
      (rows.foldl (fun acc r => scanFields header 0 acc r)
        { missingCells := 0, cols := initCols header }).cols with - | cols <;>
    rw [hfc] at hp
  · exact Option.noConfusion hp
  · dsimp only at hp
    have hpe := (Except.ok.inj (Option.some.inj hp)).symm
    have hcols : p.Columns = cols := by
      rw [hpe]
      exact collectDataset_Columns _
    have hview := scan_rows_allmissing header c rows hmiss
      { missingCells := 0, cols := initCols header }
    have hinit : lookupS c (initCols header) =
        some { values := [], counts := [], missing := 0 } := by
      rw [initCols, initCols_lookup c header []]
      simp [lookupS, hc]
    rw [hinit] at hview
    rcases hl : lookupS c
        (rows.foldl (fun acc r => scanFields header 0 acc r)
          { missingCells := 0, cols := initCols header }).cols with - | a <;>
      rw [hl] at hview
    · exact Option.noConfusion hview
    · simp only [colAccView, Option.map_some'] at hview
      have hview' := Option.some.inj hview
      have hav : a.values = [] := congrArg Prod.fst hview'
      have hac : a.counts = [] := congrArg Prod.snd hview'
      have ha : a = { values := [], counts := [], missing := a.missing } := by
        cases a
        simp_all
      rw [ha] at hl
      obtain ⟨col, hcol, hfin⟩ := finalizeCols_lookup rows.length _ cols c _ hfc hl
      obtain ⟨col', hfin', hdt, hcnt, huniq, huq, hbk, hmin, hmax⟩ :=
        finalizeCol_empty rows.length c a.missing
      have hcc : col' = col := Option.some.inj (hfin'.symm.trans hfin)
      subst hcc
      exact ⟨col', by rw [hcols]; exact hcol, hdt, hcnt, huniq, huq, hbk, hmin, hmax⟩

/-- Witness for C9 at a concrete two-column dataset whose second column is
entirely missing (the first column keeps two distinct numeric values so
the pipeline completes). -/
theorem allmissing_column_witness :
    ("blank" ∈ ["num", "blank"]) ∧
      (∀ p, ProfileCSVFromRecords "w.csv" 0
          [["num", "blank"], ["3", ""], ["7", ""]] = some (Except.ok p) →
        ∃ col, lookupS "blank" p.Columns = some col ∧
          col.DataType = "unknown" ∧ col.Count = 0 ∧ col.UniqueCount = 0 ∧
          col.IsUnique = true ∧ col.HistogramBuckets = [] ∧ col.Min = none ∧
          col.Max = none) :=
  ⟨by decide,
   allmissing_column_finalized "w.csv" 0 ["num", "blank"] [["3", ""], ["7", ""]]
     "blank" (by decide) (by decide)⟩

end DataSleuth
